import Mathlib

/-!
# FEDAO scraper core: shallow embedding and verification

This file embeds, in Lean 4, the core extraction and normalization logic of the
FEDAO FRBNY market-operations scraper:

* `FEDAOParser` (src/functions/scrape_fedao_sources/fedao_parser.py):
  amount extraction (`extract_individual_amounts`, `extract_operation_maximum`),
  security-ticker cleaning (`clean_security_ticker`), and the MOA record
  builders (`parse_single_operation`'s record-building step, `finalize_operation`).
* `CombinedFRBNYScraper` (src/functions/scrape_fedao_sources/frbny_parser.py):
  the amount parser (`parse_maximum_operation_size`), the release-date resolver
  cascade (`extract_release_date_from_web_simple`,
  `extract_release_date_with_beautifulsoup`, `extract_operation_period_end_date`,
  `calculate_dataset_release_date`, `apply_release_date_to_operations`,
  `_validate_and_convert_date_pair`, `_is_reasonable_release_date`),
  and the CSV output cleaning in `save_to_csv`.

Strings are modelled as `List Char`/`String`; Python regular-expression scans
are modelled by explicit character scanners that implement the semantics of the
specific patterns used by the source.  Network, browser and file I/O are
abstracted: the values that the code reads from those channels (parsed date
ranges found in page markup, table cells from a rendered DOM, CSV rows) are
parameters of the embedded functions.
-/

namespace Fedao

/-! ## Character helpers (Python `str` semantics, ASCII fragment) -/

/-- `\d` for the ASCII inputs handled by the scraper. -/
def isDigitChar (c : Char) : Bool := '0' ≤ c && c ≤ '9'

/-- Python `\s` / `str.strip` whitespace: space, tab, newline, CR, VT, FF. -/
def isSpaceChar (c : Char) : Bool :=
  c = ' ' || c = '\t' || c = '\n' || c = '\r' || c = '\x0b' || c = '\x0c'

/-- ASCII uppercase letter (`[A-Z]`). -/
def isUpperAZ (c : Char) : Bool := 'A' ≤ c && c ≤ 'Z'

/-- ASCII lowercase letter. -/
def isLowerAZ (c : Char) : Bool := 'a' ≤ c && c ≤ 'z'

/-- Python `str.lower` on the ASCII fragment. -/
def toLowerChar (c : Char) : Char :=
  if isUpperAZ c then Char.ofNat (c.toNat + 32) else c

/-- Python `str.upper` on the ASCII fragment. -/
def toUpperChar (c : Char) : Char :=
  if isLowerAZ c then Char.ofNat (c.toNat - 32) else c

/-- Numeric value of a run of decimal digits (Python `int` on a digit string). -/
def digitsToNat (l : List Char) : Nat :=
  l.foldl (fun acc c => 10 * acc + (c.toNat - '0'.toNat)) 0

/-- Python `str.startswith` on character lists. -/
def beginsWith (pat l : List Char) : Bool := decide (l.take pat.length = pat)

/-- Python `str.endswith` on character lists. -/
def finishesWith (pat l : List Char) : Bool := beginsWith pat.reverse l.reverse

/-- Python substring membership (`pat in l`). -/
def containsSub (pat : List Char) : List Char → Bool
  | [] => beginsWith pat []
  | c :: t => beginsWith pat (c :: t) || containsSub pat t

/-- Case-insensitive ASCII prefix test (used for `re.IGNORECASE` literals). -/
def beginsWithCI (pat l : List Char) : Bool :=
  beginsWith (pat.map toLowerChar) ((l.take pat.length).map toLowerChar)

/-! ## Python `str.strip`, `str.replace(',', '')` — cleaning in `save_to_csv` -/

/-- Leading-whitespace removal (left half of Python `str.strip`). -/
def stripLeft (l : List Char) : List Char := l.dropWhile isSpaceChar

/-- Trailing-whitespace removal (right half of Python `str.strip`). -/
def stripRight (l : List Char) : List Char := (stripLeft l.reverse).reverse

/-- Python `str.strip()`: remove leading and trailing whitespace. -/
def pyStrip (l : List Char) : List Char := stripRight (stripLeft l)

/-- Python `value.replace(',', '')`. -/
def removeCommas (l : List Char) : List Char := l.filter (fun c => c != ',')

/-- Per-value cleaning applied by `CombinedFRBNYScraper.save_to_csv`
(frbny_parser.py lines 1199-1205): `value.replace(',', '').strip()`. -/
def save_to_csv_clean_string (l : List Char) : List Char := pyStrip (removeCommas l)

/-- A CSV cell value: the standardized records hold strings for all fields
except `release_date`, which `apply_release_date_to_operations` sets to an
`int`.  `save_to_csv` cleans only `str` values (`isinstance(value, str)`). -/
inductive CsvValue where
  | str (v : List Char)
  | int (v : Int)
deriving DecidableEq, Repr

/-- The `isinstance(value, str)` guard plus cleaning in `save_to_csv`. -/
def save_to_csv_clean_value : CsvValue → CsvValue
  | .str v => .str (save_to_csv_clean_string v)
  | .int v => .int v

/-- One standardized output row: the ten public schema fields produced by
`CombinedFRBNYScraper.standardize_output_format`. -/
structure CsvRow where
  operation_date : CsvValue
  operation_time : CsvValue
  settlement_date : CsvValue
  operation_type : CsvValue
  security_type_and_maturity : CsvValue
  maturity_range : CsvValue
  maximum_operation_currency : CsvValue
  maximum_operation_size : CsvValue
  maximum_operation_multiplier : CsvValue
  release_date : CsvValue
deriving DecidableEq, Repr

/-- The per-row cleaning loop of `save_to_csv`: every field's value is passed
through `save_to_csv_clean_value`. -/
def save_to_csv_clean_row (r : CsvRow) : CsvRow where
  operation_date := save_to_csv_clean_value r.operation_date
  operation_time := save_to_csv_clean_value r.operation_time
  settlement_date := save_to_csv_clean_value r.settlement_date
  operation_type := save_to_csv_clean_value r.operation_type
  security_type_and_maturity := save_to_csv_clean_value r.security_type_and_maturity
  maturity_range := save_to_csv_clean_value r.maturity_range
  maximum_operation_currency := save_to_csv_clean_value r.maximum_operation_currency
  maximum_operation_size := save_to_csv_clean_value r.maximum_operation_size
  maximum_operation_multiplier := save_to_csv_clean_value r.maximum_operation_multiplier
  release_date := save_to_csv_clean_value r.release_date

/-! ## FEDAOParser amount extraction (fedao_parser.py)

`re.findall(r'\$(\d+)\s+Million', text, re.IGNORECASE)`: a match is a literal
`$`, a captured run of one or more digits, one or more whitespace characters,
then `Million` case-insensitively; `findall` scans left to right and resumes
after each whole match. -/

/-- Try to match `\$(\d+)\s+Million` (IGNORECASE) at the head of the list.
Returns the captured digit run's value and the remainder after the match. -/
def matchAmountAt : List Char → Option (Nat × List Char)
  | '$' :: rest =>
    let ds := rest.takeWhile isDigitChar
    if ds = [] then none
    else
      let r1 := rest.dropWhile isDigitChar
      let ws := r1.takeWhile isSpaceChar
      if ws = [] then none
      else
        let r2 := r1.dropWhile isSpaceChar
        if beginsWithCI "Million".data r2 then some (digitsToNat ds, r2.drop 7)
        else none
  | _ => none

/-- Left-to-right non-overlapping scan of `\$(\d+)\s+Million`, fuelled by the
input length (each successful match consumes at least the `$`, so the fuel
never runs out before the scan completes). -/
def findAmountsAux : Nat → List Char → List Nat
  | 0, _ => []
  | _ + 1, [] => []
  | fuel + 1, c :: cs =>
    match matchAmountAt (c :: cs) with
    | some (v, rest) => v :: findAmountsAux fuel rest
    | none => findAmountsAux fuel cs

/-- The integer captures of `re.findall(r'\$(\d+)\s+Million', text, re.IGNORECASE)`
after Python `int` conversion — the `amount_values` list of
`extract_individual_amounts` / `extract_operation_maximum`. -/
def findAmounts (text : List Char) : List Nat := findAmountsAux text.length text

/-- Python `max` over a list of naturals (`0` on the empty list, which the
source never reaches because it guards on emptiness first). -/
def maxLN (l : List Nat) : Nat := l.foldl Nat.max 0

/-- `f"${val} Million"`. -/
def fmtAmount (v : Nat) : String := "$" ++ toString v ++ " Million"

/-- The value-level disambiguation of `FEDAOParser.extract_individual_amounts`
(fedao_parser.py lines 410-428): one amount is kept as is, two amounts are both
individual, with more than two the occurrences of the maximum are dropped
unless the maximum is duplicated, and if that filter empties the list the
fallback keeps all amounts but the last. -/
def individualAmountValues (vals : List Nat) : List Nat :=
  match vals with
  | [] => []
  | [v] => [v]
  | [v, w] => [v, w]
  | v :: w :: x :: t =>
    let max_amount := maxLN (v :: w :: x :: t)
    let individual_amounts :=
      (v :: w :: x :: t).filter
        (fun u => (u != max_amount) || decide (1 < (v :: w :: x :: t).count u))
    if individual_amounts = [] then (v :: w :: x :: t).dropLast
    else individual_amounts

/-- `FEDAOParser.extract_individual_amounts`: find all `$<int> Million`
amounts, disambiguate individual amounts from the block total, and format
each kept value back as `f"${val} Million"`. -/
def extract_individual_amounts (text : String) : List String :=
  (individualAmountValues (findAmounts text.data)).map fmtAmount

/-- The numeric value of `FEDAOParser.extract_operation_maximum`'s result:
`max` of all found amounts, `0` when no amount matches. -/
def operationMaximumValue (text : String) : Nat :=
  match findAmounts text.data with
  | [] => 0
  | vs => maxLN vs

/-- `FEDAOParser.extract_operation_maximum`: `"$0 Million"` when no
`$<int> Million` match exists, otherwise `f"${max(amount_values)} Million"`. -/
def extract_operation_maximum (text : String) : String :=
  match findAmounts text.data with
  | [] => "$0 Million"
  | vs => fmtAmount (maxLN vs)

/-- Modelled from the spec's words (§4.2 amount-disambiguation policy), for
comparison against the source-derived `individualAmountValues`: one amount is
the sole individual amount; two are both individual; with more than two, every
occurrence equal to the largest value is excluded unless that largest value
occurs more than once, and if the exclusion empties the list the result is all
amounts except the last one.  (The spec says nothing about zero amounts; zero
amounts yield zero individual amounts.) -/
def spec_individual_amounts (vals : List Nat) : List Nat :=
  if vals.length = 0 then []
  else if vals.length = 1 then vals
  else if vals.length = 2 then vals
  else
    let largest := maxLN vals
    let kept := vals.filter (fun v =>
      if v = largest then decide (1 < vals.count largest) else true)
    if kept = [] then vals.dropLast else kept

/-! ## FEDAOParser MOA record builders (fedao_parser.py) -/

/-- One MOA output record (the `csv_columns` schema of `FEDAOParser`). -/
structure MOARecord where
  operationDate : String
  operationTime : String
  operationType : String
  securitiesIncluded : String
  securityMaximums : String
  operationMaximum : String
  sourceDate : String
deriving DecidableEq, Repr

/-- `FEDAOParser.determine_operation_type_from_security`: a security string
overrides the block-level operation type by ticker lookup. -/
def determine_operation_type_from_security (security default_type : String) : String :=
  let u := security.data.map toUpperChar
  if containsSub "FNCI".data u then "TBA Purchase: 15-year Uniform MBS"
  else if containsSub "G2SF".data u then "TBA Purchase: 30-year Ginnie Mae"
  else if containsSub "FNCL".data u then "TBA Purchase: 30-year Uniform MBS"
  else default_type

/-- The record-building step of `FEDAOParser.parse_single_operation`
(fedao_parser.py lines 207-252), parameterized by the securities and
individual amounts the extractors produced for the block: equal counts are
zipped 1:1; a single security takes the first individual amount if any, else
the operation maximum; several securities each take their positional amount,
falling back to the operation maximum; no securities yield no records. -/
def parse_single_operation_records (operation_date operation_time operation_type : String)
    (securities individual_amounts : List String)
    (operation_maximum source_date : String) : List MOARecord :=
  if securities.length = individual_amounts.length then
    (securities.zip individual_amounts).map (fun sa =>
      ⟨operation_date, operation_time, operation_type, sa.1, sa.2,
        operation_maximum, source_date⟩)
  else if securities.length = 1 then
    [⟨operation_date, operation_time, operation_type, securities.headD "",
      (match individual_amounts with
       | [] => operation_maximum
       | a :: _ => a),
      operation_maximum, source_date⟩]
  else if 1 < securities.length then
    securities.enum.map (fun is =>
      ⟨operation_date, operation_time, operation_type, is.2,
        (if is.1 < individual_amounts.length then individual_amounts.getD is.1 ""
         else operation_maximum),
        operation_maximum, source_date⟩)
  else []

/-- The per-block state accumulated by `FEDAOParser.parse_fallback_format`
before `finalize_operation` turns it into records; `amounts` holds the raw
digit captures of `re.findall(r'\$(\d+)\s+Million', row, re.IGNORECASE)`. -/
structure OperationData where
  date : String
  time : String
  type : String
  securities : List String
  amounts : List String
deriving DecidableEq, Repr

/-- The operation-maximum computation inside `FEDAOParser.finalize_operation`:
the largest amount formatted as `f"${max} Million"`, or `"$0 Million"` when the
block had no amounts. -/
def finalize_operation_maximum (amounts : List String) : String :=
  if amounts = [] then "$0 Million"
  else fmtAmount (maxLN (amounts.map (fun a => digitsToNat a.data)))

/-- `FEDAOParser.finalize_operation` (fedao_parser.py lines 540-597): default
the time and type when empty, compute the operation maximum, then emit one
record per security (positional amount, falling back to the operation
maximum), or a single security-less record when no security was found. -/
def finalize_operation (od : OperationData) (source_date : String) : List MOARecord :=
  let time := if od.time = "" then "11:30 AM - 11:50 AM" else od.time
  let op_type := if od.type = "" then "TBA Purchase" else od.type
  let operation_maximum := finalize_operation_maximum od.amounts
  if od.securities = [] then
    [⟨od.date, time, op_type, "",
      (match od.amounts with
       | [] => ""
       | a :: _ => "$" ++ a ++ " Million"),
      operation_maximum, source_date⟩]
  else
    od.securities.enum.map (fun is =>
      ⟨od.date, time, determine_operation_type_from_security is.2 op_type, is.2,
        (if is.1 < od.amounts.length then "$" ++ od.amounts.getD is.1 "" ++ " Million"
         else operation_maximum),
        operation_maximum, source_date⟩)

/-! ## FEDAOParser security-ticker cleaning (fedao_parser.py lines 336-369) -/

/-- `FEDAOParser.clean_security_ticker`: strip an `MBS` prefix, repair known
OCR/concatenation artifacts with context awareness, then accept the result
only if it matches `^[A-Z]{2,5}$` (`none` models Python's `return None`). -/
def clean_security_ticker (ticker : String) (context_text : String) : Option String :=
  let t0 := ticker.data
  let ctxU := context_text.data.map toUpperChar
  let t1 := if beginsWith "MBS".data t0 then pyStrip (t0.drop 3) else t0
  let t2 :=
    if t1 = "SF".data then
      if containsSub "G2SF".data ctxU then "G2SF".data
      else if containsSub "FGSF".data ctxU then "FGSF".data
      else t1
    else if t1 = "NCI".data then
      if containsSub "FNCI".data ctxU then "FNCI".data else t1
    else if finishesWith "NCI".data t1 && decide (3 < t1.length) then "FNCI".data
    else if finishesWith "SF".data t1 && decide (2 < t1.length) then
      if !(beginsWith "G2".data t1) then "G2SF".data else t1
    else t1
  if 2 ≤ t2.length && t2.length ≤ 5 && t2.all isUpperAZ then some (String.mk t2)
  else none

/-! ## CombinedFRBNYScraper amount parser (frbny_parser.py lines 80-118)

`parse_maximum_operation_size` splits a "Maximum Operation Size" text into
(currency, size, multiplier).  The currency is `re.match(r'^([^\d\s]+)', s)` on
the stripped input; the size/multiplier come from
`re.search(r'([0-9.,]+)\s*(million|billion|trillion|thousand)?', s.lower())`:
the first maximal run of `[0-9.,]`, then optional whitespace, then an optional
magnitude word — matched against the lowercased string.  The Python code
additionally coerces the size string to `int`/`float` when possible; that
floating-point coercion is outside every claim and the size is kept here as
the raw matched text. -/

/-- `[0-9.,]` — the size character class. -/
def isSizeClassChar (c : Char) : Bool := isDigitChar c || c = '.' || c = ','

/-- The `re.search` of `([0-9.,]+)\s*...`: scan to the first size-class
character, take the maximal size-class run, then skip `\s*`.  Returns the
captured run and the remainder where the optional magnitude word is sought. -/
def findSizeMatch : List Char → Option (List Char × List Char)
  | [] => none
  | c :: t =>
    if isSizeClassChar c then
      some ((c :: t).takeWhile isSizeClassChar,
        ((c :: t).dropWhile isSizeClassChar).dropWhile isSpaceChar)
    else findSizeMatch t

/-- The optional group `(million|billion|trillion|thousand)?` at the current
position of the (already lowercased) input: the matched word, or `none`. -/
def magnitudeWordAt (l : List Char) : Option (List Char) :=
  if beginsWith "million".data l then some "million".data
  else if beginsWith "billion".data l then some "billion".data
  else if beginsWith "trillion".data l then some "trillion".data
  else if beginsWith "thousand".data l then some "thousand".data
  else none

/-- `CombinedFRBNYScraper.parse_maximum_operation_size`, returning the
(currency, size, multiplier) triple as raw matched text. -/
def parse_maximum_operation_size (max_op_size : String) : String × String × String :=
  if pyStrip max_op_size.data = [] then ("", "", "")
  else
    let s := pyStrip max_op_size.data
    let currency := String.mk (s.takeWhile (fun c => !isDigitChar c && !isSpaceChar c))
    let lowered := s.map toLowerChar
    match findSizeMatch lowered with
    | none => (currency, "", "")
    | some (size, rest) =>
      (currency, String.mk size,
        match magnitudeWordAt rest with
        | some w => String.mk w
        | none => "")

/-! ## Release-date resolver (frbny_parser.py lines 120-502)

Calendar dates are modelled concretely; the HTTP/browser observations are
parameters.  A raw `M/D/YYYY` capture of the pattern
`(\d{1,2}/\d{1,2}/\d{4})` is a `(month, day, year)` triple of numbers;
`datetime.strptime(..., '%m/%d/%Y')` then accepts it only when it is a real
calendar date (year 1-9999), else raises `ValueError` (modelled as `none`). -/

/-- A calendar date as compared and formatted by `datetime`. -/
structure SimpleDate where
  year : Nat
  month : Nat
  day : Nat
deriving DecidableEq, Repr

/-- A raw `(month, day, year)` capture of `(\d{1,2}/\d{1,2}/\d{4})`. -/
abbrev RawMDY := Nat × Nat × Nat

/-- Gregorian leap-year rule used by `datetime`. -/
def isLeapYear (y : Nat) : Bool :=
  (y % 4 = 0 && y % 100 ≠ 0) || y % 400 = 0

/-- Days in a month of a given year. -/
def daysInMonth (y m : Nat) : Nat :=
  if m = 2 then (if isLeapYear y then 29 else 28)
  else if m = 4 || m = 6 || m = 9 || m = 11 then 30
  else 31

/-- Calendar-validity check shared by every `datetime` constructor call. -/
def mkValidDate (y m d : Nat) : Option SimpleDate :=
  if 1 ≤ y && y ≤ 9999 && 1 ≤ m && m ≤ 12 && 1 ≤ d && d ≤ daysInMonth y m then
    some ⟨y, m, d⟩
  else none

/-- `datetime.strptime(f"{m}/{d}/{y}", '%m/%d/%Y')` on a raw capture. -/
def strptimeMDY (r : RawMDY) : Option SimpleDate := mkValidDate r.2.2 r.1 r.2.1

/-- Chronological order on dates (`datetime.__le__`): lexicographic on
(year, month, day). -/
def dateLe (a b : SimpleDate) : Bool :=
  decide (a.year < b.year) ||
    (a.year = b.year &&
      (decide (a.month < b.month) || (a.month = b.month && decide (a.day ≤ b.day))))

/-- Strict chronological order (`datetime.__lt__`). -/
def dateLt (a b : SimpleDate) : Bool := dateLe a b && !(a = b)

/-- Leap years strictly before year `y` (from year 1). -/
def leapsBefore (y : Nat) : Nat := (y - 1) / 4 - (y - 1) / 100 + (y - 1) / 400

/-- Days in the months of year `y` strictly before month `m`. -/
def daysBeforeMonth (y m : Nat) : Nat :=
  ((List.range (m - 1)).map (fun i => daysInMonth y (i + 1))).sum

/-- Proleptic-Gregorian day ordinal (`datetime.toordinal`). -/
def toOrdinal (d : SimpleDate) : Nat :=
  365 * (d.year - 1) + leapsBefore d.year + daysBeforeMonth d.year d.month + d.day

/-- `(end - start).days` for two dates. -/
def date_pair_days (so eo : SimpleDate) : Int :=
  (toOrdinal eo : Int) - (toOrdinal so : Int)

/-- `int(d.strftime('%Y%m%d'))`. -/
def yyyymmdd (d : SimpleDate) : Nat := d.year * 10000 + d.month * 100 + d.day

/-- `CombinedFRBNYScraper._validate_and_convert_date_pair` (frbny_parser.py
lines 332-360): both endpoint years at or after the current year, end not
before start, and a span of 1 to 365 days.  (The `attempt_num` argument of the
source only feeds logging and is dropped.  This helper is defined in the
source but never invoked by any caller.) -/
def _validate_and_convert_date_pair (rs re : RawMDY) (current_year : Nat) : Bool :=
  match strptimeMDY rs, strptimeMDY re with
  | some so, some eo =>
    if current_year ≤ so.year && current_year ≤ eo.year then
      if dateLe so eo then
        decide (1 ≤ date_pair_days so eo) && decide (date_pair_days so eo ≤ 365)
      else false
    else false
  | _, _ => false

/-- What strategy 1 (`extract_release_date_from_web_simple`) observes on the
fetched page, collapsed over the (deterministic) retry loop: either the
`pagination-table`/`data-container` structure was found — with the
`M/D/YYYY - M/D/YYYY` capture of its first row's first cell, if any — or it
was not, in which case the fallback scan over all `<td>` elements yields its
first capture, if any. -/
inductive SimplePage where
  | tableFound (cell : Option (RawMDY × RawMDY))
  | noTable (fallbackCell : Option (RawMDY × RawMDY))
deriving DecidableEq, Repr

/-- `CombinedFRBNYScraper.extract_release_date_from_web_simple` (frbny_parser.py
lines 120-268).  Main path: parse both endpoints, require both years at or
after the current year, and return the end date as `YYYYMMDD`.  Fallback path
(table structure not found): parse only the end date and require only its
year, returning the end date as `YYYYMMDD`.  Every failure (no capture, a
`ValueError` from `strptime`, an old year) exhausts the attempts and yields
`None`. -/
def extract_release_date_from_web_simple (page : SimplePage) (current_year : Nat) :
    Option Nat :=
  match page with
  | .tableFound cell =>
    match cell with
    | some (rs, re) =>
      match strptimeMDY rs, strptimeMDY re with
      | some so, some eo =>
        if current_year ≤ so.year && current_year ≤ eo.year then some (yyyymmdd eo)
        else none
      | _, _ => none
    | none => none
  | .noTable fb =>
    match fb with
    | some (_, re) =>
      match strptimeMDY re with
      | some eo => if current_year ≤ eo.year then some (yyyymmdd eo) else none
      | none => none
    | none => none

/-- `CombinedFRBNYScraper.extract_release_date_with_beautifulsoup`
(frbny_parser.py lines 270-330): the first cell's date-range capture, if the
expected structure is present; the end date is converted with no validation at
all (a `strptime` failure is swallowed by the catch-all handler). -/
def extract_release_date_with_beautifulsoup (cell : Option (RawMDY × RawMDY)) :
    Option Nat :=
  match cell with
  | some (_, re) => (strptimeMDY re).map yyyymmdd
  | none => none

/-- First period-cell capture that `strptime` accepts (the row loop of
`extract_operation_period_end_date` breaks at the first parseable end date and
skips unparseable ones). -/
def firstParseableEndDate : List RawMDY → Option SimpleDate
  | [] => none
  | r :: t =>
    match strptimeMDY r with
    | some d => some d
    | none => firstParseableEndDate t

/-- `CombinedFRBNYScraper.extract_operation_period_end_date` (frbny_parser.py
lines 457-502): with a driver, the first parseable period end date from the
rendered "Operation Period Details" table as `YYYYMMDD`; in every other case
(no driver, or nothing found) the current date. -/
def extract_operation_period_end_date (hasDriver : Bool) (periodCells : List RawMDY)
    (today : SimpleDate) : Nat :=
  match (if hasDriver then firstParseableEndDate periodCells else none) with
  | some eo => yyyymmdd eo
  | none => yyyymmdd today

/-- `CombinedFRBNYScraper._is_reasonable_release_date` (frbny_parser.py lines
362-387): re-parse the candidate as a calendar date and accept it iff it lies
between Jan 1 of last year and Dec 31 two years ahead (the further
days-from-today comparison only selects a log message — both of its branches
accept).  Any `ValueError` — an invalid candidate date, or an out-of-range
`datetime(...)` bound — returns `False` through the catch-all handler. -/
def _is_reasonable_release_date (r : Nat) (today : SimpleDate) : Bool :=
  match mkValidDate (r / 10000) (r / 100 % 100) (r % 100) with
  | none => false
  | some dobj =>
    if 2 ≤ today.year && today.year + 2 ≤ 9999 then
      dateLe ⟨today.year - 1, 1, 1⟩ dobj && dateLe dobj ⟨today.year + 2, 12, 31⟩
    else false

/-- The `if release_date and self._is_reasonable_release_date(release_date)`
acceptance applied to each strategy's candidate inside
`calculate_dataset_release_date`. -/
def acceptCandidate (c : Option Nat) (today : SimpleDate) : Option Nat :=
  match c with
  | some r => if _is_reasonable_release_date r today then some r else none
  | none => none

/-- Everything `calculate_dataset_release_date` observes from the network and
the browser session. -/
structure ResolverObservation where
  page : SimplePage
  bsoupCell : Option (RawMDY × RawMDY)
  hasDriver : Bool
  browserPeriodCells : List RawMDY
deriving DecidableEq, Repr

/-- One already-parsed operation record as scanned by the resolver's
operation-date fallback and stamped by `apply_release_date_to_operations`.
The two date fields hold the `M/D/YYYY`-shaped content of
`'OPERATION DATE'` / `'SETTLEMENT DATE'` (`none` when the field is empty or
not of that shape, in which case `strptime` raises and the loop continues). -/
structure TOAOperation where
  operationDateField : Option RawMDY
  settlementDateField : Option RawMDY
  release_date : Option Nat
deriving DecidableEq, Repr

/-- `datetime.strptime(date_str, '%m/%d/%Y')` on an operation date field. -/
def fieldDate : Option RawMDY → Option SimpleDate
  | none => none
  | some r => strptimeMDY r

/-- The `max_date` scan of `calculate_dataset_release_date` (frbny_parser.py
lines 420-430): the chronologically largest parseable operation/settlement
date over all records, if any. -/
def maxOperationDate (operations : List TOAOperation) : Option SimpleDate :=
  operations.foldl (fun acc op =>
    [fieldDate op.operationDateField, fieldDate op.settlementDateField].foldl
      (fun acc2 d? =>
        match d? with
        | none => acc2
        | some d =>
          match acc2 with
          | none => some d
          | some m => if dateLt m d then some d else some m) acc) none

/-- `CombinedFRBNYScraper.calculate_dataset_release_date` (frbny_parser.py
lines 389-440): the strategy cascade — simple web extraction, BeautifulSoup
extraction, browser extraction (when a driver exists), each gated by the
reasonableness check; then the maximum operation/settlement date of the
already-parsed records; finally the current date. -/
def calculate_dataset_release_date (obs : ResolverObservation)
    (operations : List TOAOperation) (today : SimpleDate) : Nat :=
  match acceptCandidate
      (extract_release_date_from_web_simple obs.page today.year) today with
  | some r => r
  | none =>
    match acceptCandidate
        (extract_release_date_with_beautifulsoup obs.bsoupCell) today with
    | some r => r
    | none =>
      match (if obs.hasDriver then
          acceptCandidate
            (some (extract_operation_period_end_date true obs.browserPeriodCells today))
            today
        else none) with
      | some r => r
      | none =>
        match maxOperationDate operations with
        | some m => yyyymmdd m
        | none => yyyymmdd today

/-- `CombinedFRBNYScraper.apply_release_date_to_operations` (frbny_parser.py
lines 442-455): an empty batch is returned untouched; otherwise the resolved
release date is written into every record's `release_date` field. -/
def apply_release_date_to_operations (obs : ResolverObservation)
    (operations : List TOAOperation) (today : SimpleDate) : List TOAOperation :=
  if operations = [] then operations
  else
    let r := calculate_dataset_release_date obs operations today
    operations.map (fun op => { op with release_date := some r })

/-! ### Idempotence lemmas for the cleaning pass -/

theorem dropWhile_idem (p : Char → Bool) (l : List Char) :
    (l.dropWhile p).dropWhile p = l.dropWhile p := by
  induction l with
  | nil => rfl
  | cons a t ih =>
    by_cases h : p a
    · simpa [List.dropWhile, h] using ih
    · simp [List.dropWhile, h]

theorem dropWhile_append_exists (p : Char → Bool) (l : List Char) :
    ∃ t, t ++ l.dropWhile p = l := by
  induction l with
  | nil => exact ⟨[], rfl⟩
  | cons a t ih =>
    by_cases h : p a
    · obtain ⟨u, hu⟩ := ih
      exact ⟨a :: u, by simp [List.dropWhile, h, hu]⟩
    · exact ⟨[], by simp [List.dropWhile, h]⟩

theorem length_dropWhile_le' (p : Char → Bool) (l : List Char) :
    (l.dropWhile p).length ≤ l.length := by
  induction l with
  | nil => simp
  | cons a t ih =>
    by_cases h : p a
    · simp only [List.dropWhile, h, List.length_cons]
      omega
    · simp [List.dropWhile, h]

theorem head_not_sat_of_dropWhile_eq_self (p : Char → Bool) (a : Char) (t : List Char)
    (h : (a :: t).dropWhile p = a :: t) : p a = false := by
  by_contra hpa
  have hpa' : p a = true := by
    cases hp : p a with
    | false => exact absurd hp hpa
    | true => rfl
  rw [List.dropWhile_cons_of_pos hpa'] at h
  have hle := length_dropWhile_le' p t
  have heq : (t.dropWhile p).length = t.length + 1 := by rw [h]; rfl
  omega

theorem stripLeft_idem (l : List Char) : stripLeft (stripLeft l) = stripLeft l :=
  dropWhile_idem isSpaceChar l

theorem stripRight_idem (l : List Char) : stripRight (stripRight l) = stripRight l := by
  unfold stripRight
  rw [List.reverse_reverse, stripLeft_idem]

/-- A left-stripped list stays left-stripped after right-stripping: the
right strip only removes a suffix, so the (non-whitespace) head survives. -/
theorem stripLeft_stripRight (l : List Char) (h : stripLeft l = l) :
    stripLeft (stripRight l) = stripRight l := by
  cases hsr : stripRight l with
  | nil => simp [stripLeft, List.dropWhile]
  | cons a w =>
    obtain ⟨t, ht⟩ := dropWhile_append_exists isSpaceChar l.reverse
    have hform : stripRight l ++ t.reverse = l := by
      have := congrArg List.reverse ht
      simpa [stripRight, stripLeft] using this
    rw [hsr] at hform
    have hla : ∃ t', l = a :: t' := ⟨w ++ t.reverse, by rw [← hform]; simp⟩
    obtain ⟨t', ht'⟩ := hla
    have hpa : isSpaceChar a = false := by
      apply head_not_sat_of_dropWhile_eq_self isSpaceChar a t'
      rw [← ht']; exact h
    simp [stripLeft, List.dropWhile, hpa]

theorem pyStrip_idem (l : List Char) : pyStrip (pyStrip l) = pyStrip l := by
  unfold pyStrip
  rw [stripLeft_stripRight (stripLeft l) (stripLeft_idem l), stripRight_idem]

theorem mem_stripLeft (c : Char) (l : List Char) (h : c ∈ stripLeft l) : c ∈ l := by
  obtain ⟨t, ht⟩ := dropWhile_append_exists isSpaceChar l
  rw [← ht]
  exact List.mem_append_right t h

theorem mem_pyStrip (c : Char) (l : List Char) (h : c ∈ pyStrip l) : c ∈ l := by
  unfold pyStrip stripRight at h
  have h1 := List.mem_reverse.mpr h
  rw [List.reverse_reverse] at h1
  have h2 := mem_stripLeft c (stripLeft l).reverse h1
  exact mem_stripLeft c l (List.mem_reverse.mp h2)

theorem removeCommas_of_no_comma (l : List Char) (h : ∀ c ∈ l, (c != ',') = true) :
    removeCommas l = l :=
  List.filter_eq_self.mpr h

theorem no_comma_removeCommas (l : List Char) (c : Char) (h : c ∈ removeCommas l) :
    (c != ',') = true :=
  (List.mem_filter.mp h).2

theorem save_to_csv_clean_string_idem (l : List Char) :
    save_to_csv_clean_string (save_to_csv_clean_string l) = save_to_csv_clean_string l := by
  unfold save_to_csv_clean_string
  rw [removeCommas_of_no_comma (pyStrip (removeCommas l))
      (fun c hc => no_comma_removeCommas l c (mem_pyStrip c (removeCommas l) hc)),
    pyStrip_idem]

theorem save_to_csv_clean_value_idem (v : CsvValue) :
    save_to_csv_clean_value (save_to_csv_clean_value v) = save_to_csv_clean_value v := by
  cases v with
  | str s => simp [save_to_csv_clean_value, save_to_csv_clean_string_idem]
  | int n => rfl

/-- **C8** — The Output Normalizer's per-value cleaning (strip surrounding
whitespace and remove literal commas from every string field, as performed by
`save_to_csv`) is idempotent: cleaning an already-cleaned record yields an
identical record. -/
theorem save_to_csv_cleaning_idempotent (r : CsvRow) :
    save_to_csv_clean_row (save_to_csv_clean_row r) = save_to_csv_clean_row r := by
  unfold save_to_csv_clean_row
  simp [save_to_csv_clean_value_idem]

/-! ### Amount-disambiguation lemmas (C3, C9, C10) -/

theorem foldl_max_init_le (l : List Nat) (init : Nat) :
    init ≤ l.foldl Nat.max init := by
  induction l generalizing init with
  | nil => simp
  | cons a t ih =>
    calc init ≤ Nat.max init a := Nat.le_max_left _ _
    _ ≤ t.foldl Nat.max (Nat.max init a) := ih _

theorem mem_le_foldl_max (l : List Nat) (a : Nat) (h : a ∈ l) (init : Nat) :
    a ≤ l.foldl Nat.max init := by
  induction l generalizing init with
  | nil => cases h
  | cons b t ih =>
    rcases List.mem_cons.mp h with hb | ht
    · subst hb
      calc a ≤ Nat.max init a := Nat.le_max_right _ _
      _ ≤ t.foldl Nat.max (Nat.max init a) := foldl_max_init_le _ _
    · exact ih ht _

theorem mem_le_maxLN (l : List Nat) (a : Nat) (h : a ∈ l) : a ≤ maxLN l :=
  mem_le_foldl_max l a h 0

theorem mem_individualAmountValues (vals : List Nat) (v : Nat)
    (h : v ∈ individualAmountValues vals) : v ∈ vals := by
  match vals with
  | [] => exact h
  | [a] => exact h
  | [a, b] => exact h
  | a :: b :: c :: t =>
    simp only [individualAmountValues] at h
    split at h
    · exact List.dropLast_subset _ h
    · exact List.mem_of_mem_filter h

/-- **C9** — Every amount kept by the individual-amounts extractor has a
numeric value at most the numeric value of the operation maximum extracted
from the same text: `individualAmountValues`/`operationMaximumValue` are the
integer-level contents of `extract_individual_amounts` and
`extract_operation_maximum` (which merely format these values as
`f"${val} Million"`). -/
theorem individual_amounts_le_operation_maximum (text : String) (v : Nat)
    (h : v ∈ individualAmountValues (findAmounts text.data)) :
    v ≤ operationMaximumValue text := by
  unfold operationMaximumValue
  cases hv : findAmounts text.data with
  | nil => rw [hv] at h; cases h
  | cons a t =>
    rw [hv] at h
    exact mem_le_maxLN _ _ (mem_individualAmountValues _ _ h)

/-- Witness for C9 at a concrete block text. -/
theorem individual_amounts_le_operation_maximum_witness :
    24 ∈ individualAmountValues
        (findAmounts "$24 Million $26 Million $50 Million".data) ∧
      24 ≤ operationMaximumValue "$24 Million $26 Million $50 Million" :=
  ⟨by decide,
    individual_amounts_le_operation_maximum "$24 Million $26 Million $50 Million" 24
      (by decide)⟩

theorem individualAmountValues_eq_spec (vals : List Nat) :
    individualAmountValues vals = spec_individual_amounts vals := by
  match vals with
  | [] => rfl
  | [a] => rfl
  | [a, b] => rfl
  | a :: b :: c :: t =>
    have hfil : (a :: b :: c :: t).filter
        (fun v => (v != maxLN (a :: b :: c :: t)) ||
          decide (1 < (a :: b :: c :: t).count v)) =
        (a :: b :: c :: t).filter
          (fun v => if v = maxLN (a :: b :: c :: t) then
            decide (1 < (a :: b :: c :: t).count (maxLN (a :: b :: c :: t)))
          else true) := by
      apply List.filter_congr
      intro v _
      by_cases hv : v = maxLN (a :: b :: c :: t)
      · subst hv
        simp
      · simp [hv]
    have h0 : ¬ ((a :: b :: c :: t).length = 0) := by
      simp only [List.length_cons]
      omega
    have h1 : ¬ ((a :: b :: c :: t).length = 1) := by
      simp only [List.length_cons]
      omega
    have h2 : ¬ ((a :: b :: c :: t).length = 2) := by
      simp only [List.length_cons]
      omega
    simp only [individualAmountValues, spec_individual_amounts,
      if_neg h0, if_neg h1, if_neg h2]
    rw [hfil]

/-- **C3** — The individual-amounts extractor obeys the claimed
disambiguation policy: its output is exactly the spec-mirrored
`spec_individual_amounts` of the found amounts (one amount kept as the sole
individual amount, two kept as both, with more than two every occurrence of
the largest excluded unless the largest occurs more than once, and all but the
last amount when the exclusion empties the list), formatted back as
`f"${val} Million"`. -/
theorem extract_individual_amounts_matches_policy (text : String) :
    extract_individual_amounts text =
      (spec_individual_amounts (findAmounts text.data)).map fmtAmount := by
  unfold extract_individual_amounts
  rw [individualAmountValues_eq_spec]

/-- **C10** — A block text with no `$<int> Million` match yields the literal
operation maximum `"$0 Million"`, and every MOA record finalized from an
amount-less block carries `"$0 Million"` as its `OperationMaximum`. -/
theorem no_amount_block_yields_zero_maximum :
    (∀ text : String, findAmounts text.data = [] →
      extract_operation_maximum text = "$0 Million") ∧
    (∀ (od : OperationData) (sd : String), od.amounts = [] →
      ∀ r ∈ finalize_operation od sd, r.operationMaximum = "$0 Million") := by
  constructor
  · intro text h
    unfold extract_operation_maximum
    rw [h]
  · intro od sd h r hr
    have hmax : finalize_operation_maximum od.amounts = "$0 Million" := by
      unfold finalize_operation_maximum
      rw [if_pos h]
    simp only [finalize_operation] at hr
    split at hr
    · rcases List.mem_singleton.mp hr with rfl
      exact hmax
    · obtain ⟨is, _, rfl⟩ := List.mem_map.mp hr
      exact hmax

/-- Witness for C10 at a concrete amount-less block. -/
theorem no_amount_block_yields_zero_maximum_witness :
    extract_operation_maximum "TBA Purchase 10:00 AM" = "$0 Million" :=
  no_amount_block_yields_zero_maximum.1 "TBA Purchase 10:00 AM" (by decide)

/-! ### Security/amount pairing completeness (C2) -/

/-- **C2** — For any operation block where the extractors produced `N ≥ 1`
securities and `M ≠ N` individual amounts, both MOA record builders emit
exactly `N` records, one per security in order, and every security without a
positionally matching individual amount (index `≥ M`) receives the block's
operation maximum as its amount. -/
theorem security_amount_pairing_completeness :
    (∀ (od ot oty : String) (secs amts : List String) (om sd : String),
      1 ≤ secs.length → secs.length ≠ amts.length →
      (parse_single_operation_records od ot oty secs amts om sd).length = secs.length ∧
      (parse_single_operation_records od ot oty secs amts om sd).map
          (fun r => r.securitiesIncluded) = secs ∧
      (∀ (i : Nat) (r : MOARecord),
        (parse_single_operation_records od ot oty secs amts om sd)[i]? = some r →
        amts.length ≤ i → r.securityMaximums = om)) ∧
    (∀ (opd : OperationData) (sd : String),
      1 ≤ opd.securities.length → opd.securities.length ≠ opd.amounts.length →
      (finalize_operation opd sd).length = opd.securities.length ∧
      (finalize_operation opd sd).map (fun r => r.securitiesIncluded) =
        opd.securities ∧
      (∀ (i : Nat) (r : MOARecord), (finalize_operation opd sd)[i]? = some r →
        opd.amounts.length ≤ i →
        r.securityMaximums = finalize_operation_maximum opd.amounts)) := by
  constructor
  · intro od ot oty secs amts om sd hN hne
    unfold parse_single_operation_records
    rw [if_neg hne]
    by_cases h1 : secs.length = 1
    · obtain ⟨s, rfl⟩ := List.length_eq_one.mp h1
      have hM : amts.length ≠ 1 := fun hM => hne (h1.trans hM.symm)
      refine ⟨by simp [h1], by simp [h1], ?_⟩
      intro i r hr hi
      rw [if_pos h1] at hr
      cases i with
      | zero =>
        have hamts : amts = [] := by
          cases amts with
          | nil => rfl
          | cons a t => simp [List.length_cons] at hi
        subst hamts
        rcases Option.some_injective _ hr with rfl
        rfl
      | succ n => simp at hr
    · have hgt : 1 < secs.length := by omega
      rw [if_neg h1, if_pos hgt]
      refine ⟨by simp, ?_, ?_⟩
      · rw [List.map_map]
        have : ((fun r : MOARecord => r.securitiesIncluded) ∘ fun is =>
            (⟨od, ot, oty, is.2,
              (if is.1 < amts.length then amts.getD is.1 "" else om),
              om, sd⟩ : MOARecord)) = Prod.snd := rfl
        rw [this, List.enum_map_snd]
      · intro i r hr hi
        rw [List.getElem?_map, List.getElem?_enum] at hr
        cases hs : secs[i]? with
        | none => rw [hs] at hr; cases hr
        | some s =>
          rw [hs] at hr
          rcases Option.some_injective _ hr with rfl
          dsimp only
          rw [if_neg (by omega)]
  · intro opd sd hN hne
    have hsecs : opd.securities ≠ [] := by
      intro h
      rw [h] at hN
      cases hN
    unfold finalize_operation
    rw [if_neg hsecs]
    refine ⟨by simp, ?_, ?_⟩
    · rw [List.map_map]
      have : ((fun r : MOARecord => r.securitiesIncluded) ∘ fun is =>
          (⟨opd.date,
            (if opd.time = "" then "11:30 AM - 11:50 AM" else opd.time),
            determine_operation_type_from_security is.2
              (if opd.type = "" then "TBA Purchase" else opd.type), is.2,
            (if is.1 < opd.amounts.length then
              "$" ++ opd.amounts.getD is.1 "" ++ " Million"
            else finalize_operation_maximum opd.amounts),
            finalize_operation_maximum opd.amounts, sd⟩ : MOARecord)) = Prod.snd := rfl
      rw [this, List.enum_map_snd]
    · intro i r hr hi
      rw [List.getElem?_map, List.getElem?_enum] at hr
      cases hs : opd.securities[i]? with
      | none => rw [hs] at hr; cases hr
      | some s =>
        rw [hs] at hr
        rcases Option.some_injective _ hr with rfl
        dsimp only
        rw [if_neg (by omega)]

/-- Witness for C2: a block with two securities and one individual amount
produces two records, and the second receives the operation maximum. -/
theorem security_amount_pairing_completeness_witness :
    (parse_single_operation_records "6/5/2025" "11:30 AM - 11:50 AM" "TBA Purchase"
        ["FNCI 5.0", "G2SF 5.5"] ["$24 Million"] "$26 Million" "20250612").length = 2 ∧
      (parse_single_operation_records "6/5/2025" "11:30 AM - 11:50 AM" "TBA Purchase"
          ["FNCI 5.0", "G2SF 5.5"] ["$24 Million"] "$26 Million" "20250612").map
        (fun r => r.securitiesIncluded) = ["FNCI 5.0", "G2SF 5.5"] := by
  have h := security_amount_pairing_completeness.1 "6/5/2025" "11:30 AM - 11:50 AM"
    "TBA Purchase" ["FNCI 5.0", "G2SF 5.5"] ["$24 Million"] "$26 Million" "20250612"
    (by decide) (by decide)
  exact ⟨h.1, h.2.1⟩

/-! ### Ticker cleaning (C5) -/

/-- **C5 counterexample** — For the extracted token `"SF"`: with a context
containing no `G2SF`/`FGSF` the cleaner returns `"SF"` unchanged (not the
claimed `"FGSF"`); and with `G2SF` in the context the repaired `"G2SF"` is
then rejected by the `^[A-Z]{2,5}$` validation (the digit `2` is not an
uppercase letter), so the cleaner returns `None` rather than `"G2SF"`. -/
theorem clean_security_ticker_sf_counterexample :
    clean_security_ticker "SF" "TBA PURCHASE 5.0 $24 Million" = some "SF" ∧
      some ("SF" : String) ≠ some ("FGSF" : String) ∧
      clean_security_ticker "SF" "MBS G2SF 5.5" = none := by decide

/-- The final validation step of `clean_security_ticker`
(`re.match(r'^[A-Z]\x7b2,5\x7d$', ticker)`): whatever is accepted is 2-5
uppercase letters. -/
theorem accepted_ticker_shape (t2 : List Char) (r : String)
    (h : (if (decide (2 ≤ t2.length) && decide (t2.length ≤ 5) &&
          t2.all isUpperAZ) = true
        then some (String.mk t2) else none) = some r) :
    2 ≤ r.length ∧ r.length ≤ 5 ∧ r.data.all isUpperAZ = true := by
  split at h
  case isTrue hc =>
    rcases Option.some_injective _ h with rfl
    simp only [Bool.and_eq_true, decide_eq_true_eq] at hc
    exact ⟨hc.1.1, hc.1.2, hc.2⟩
  case isFalse => cases h

/-- **C5 amended** — For the token `"SF"`: the cleaner returns `none` when
`G2SF` appears (case-insensitively) in the context (the repair to `"G2SF"` is
rejected by the letters-only validation), `"FGSF"` when `FGSF` appears and
`G2SF` does not, and `"SF"` unchanged otherwise; and every accepted ticker
matches 2-5 uppercase letters. -/
theorem clean_security_ticker_sf_amended :
    (∀ ctx : String,
      clean_security_ticker "SF" ctx =
        (if containsSub "G2SF".data (ctx.data.map toUpperChar) then none
         else if containsSub "FGSF".data (ctx.data.map toUpperChar) then some "FGSF"
         else some "SF")) ∧
    (∀ t ctx r : String, clean_security_ticker t ctx = some r →
      2 ≤ r.length ∧ r.length ≤ 5 ∧ r.data.all isUpperAZ = true) := by
  constructor
  · intro ctx
    cases hg : containsSub "G2SF".data (ctx.data.map toUpperChar) with
    | true =>
      simp only [clean_security_ticker]
      rw [hg]
      rfl
    | false =>
      cases hf : containsSub "FGSF".data (ctx.data.map toUpperChar) with
      | true =>
        simp only [clean_security_ticker]
        rw [hg, hf]
        rfl
      | false =>
        simp only [clean_security_ticker]
        rw [hg, hf]
        rfl
  · intro t ctx r h
    simp only [clean_security_ticker] at h
    exact accepted_ticker_shape _ _ h

/-- Witness for the C5 amended theorem at concrete inputs. -/
theorem clean_security_ticker_sf_amended_witness :
    clean_security_ticker "SF" "POOL FGSF 5.5" =
        (if containsSub "G2SF".data (("POOL FGSF 5.5" : String).data.map toUpperChar)
         then none
         else if containsSub "FGSF".data
             (("POOL FGSF 5.5" : String).data.map toUpperChar) then some "FGSF"
         else some "SF") ∧
      (2 ≤ ("UMBS" : String).length ∧ ("UMBS" : String).length ≤ 5 ∧
        ("UMBS" : String).data.all isUpperAZ = true) :=
  ⟨clean_security_ticker_sf_amended.1 "POOL FGSF 5.5",
    clean_security_ticker_sf_amended.2 "UMBS" "x" "UMBS" (by decide)⟩

/-! ### Amount parser multiplier casing (C4) -/

/-- **C4 counterexample** — `parse_maximum_operation_size` searches the
magnitude word on a lowercased copy of the input, so `"$50 Million"` yields
the multiplier `"million"`, not the case-preserved `"Million"` the claim
states. -/
theorem parse_maximum_operation_size_counterexample :
    (parse_maximum_operation_size "$50 Million").2.2 = "million" ∧
      ("million" : String) ≠ "Million" := by decide

/-- **C4 amended** — The multiplier component returned by the Amount Parser
is the matched magnitude word in lowercase (the match runs against
`max_op_size.lower()`), or the empty string when no magnitude word is
present: `"$50 Million"` parses to `("$", "50", "million")`, and for every
input the multiplier is one of `million`/`billion`/`trillion`/`thousand`
(all lowercase) or empty. -/
theorem parse_maximum_operation_size_multiplier_lowercase :
    parse_maximum_operation_size "$50 Million" = ("$", "50", "million") ∧
    ∀ s : String, (parse_maximum_operation_size s).2.2 = "million" ∨
      (parse_maximum_operation_size s).2.2 = "billion" ∨
      (parse_maximum_operation_size s).2.2 = "trillion" ∨
      (parse_maximum_operation_size s).2.2 = "thousand" ∨
      (parse_maximum_operation_size s).2.2 = "" := by
  refine ⟨by decide, ?_⟩
  intro s
  simp only [parse_maximum_operation_size]
  split
  · right; right; right; right; rfl
  · cases hm : findSizeMatch ((pyStrip s.data).map toLowerChar) with
    | none => right; right; right; right; simp [hm]
    | some p =>
      obtain ⟨size, rest⟩ := p
      simp only [hm]
      simp only [magnitudeWordAt]
      split_ifs <;> simp

/-! ### Release-date resolver validation (C1) -/

/-- **C1 counterexample** — The resolver returns a strategy-1 markup candidate
whose date range has a span of 0 days: with the first cell of the pagination
table reading `6/13/2026 - 6/13/2026` (and today = 2026-10-12), the resolver
returns `20260613`, while the claimed validity conditions — embedded here as
the (never invoked) helper `_validate_and_convert_date_pair` — reject that
range because its span is below 1 day. -/
theorem release_date_validation_counterexample :
    calculate_dataset_release_date
        ⟨.tableFound (some ((6, 13, 2026), (6, 13, 2026))), none, false, []⟩ []
        ⟨2026, 10, 12⟩ = 20260613 ∧
      _validate_and_convert_date_pair (6, 13, 2026) (6, 13, 2026) 2026 = false ∧
      date_pair_days ⟨2026, 6, 13⟩ ⟨2026, 6, 13⟩ = 0 := by decide

/-- **C1 amended** — What the resolver actually validates: a strategy-1
main-path candidate is returned only when both parsed endpoints' years are at
or after the current year (the candidate being the end date); the strategy-1
fallback path checks only the end date's year; and any strategy candidate is
accepted by the resolver only after passing `_is_reasonable_release_date`.
No ordering or 1-365-day span check is applied anywhere on these paths: the
helper `_validate_and_convert_date_pair`, which implements the claimed
conditions, is never invoked. -/
theorem release_date_validation_amended :
    (∀ (rs re : RawMDY) (cy r : Nat),
      extract_release_date_from_web_simple (.tableFound (some (rs, re))) cy = some r →
      ∃ so eo, strptimeMDY rs = some so ∧ strptimeMDY re = some eo ∧
        cy ≤ so.year ∧ cy ≤ eo.year ∧ r = yyyymmdd eo) ∧
    (∀ (rs re : RawMDY) (cy r : Nat),
      extract_release_date_from_web_simple (.noTable (some (rs, re))) cy = some r →
      ∃ eo, strptimeMDY re = some eo ∧ cy ≤ eo.year ∧ r = yyyymmdd eo) ∧
    (∀ (c : Option Nat) (today : SimpleDate) (r : Nat),
      acceptCandidate c today = some r →
      c = some r ∧ _is_reasonable_release_date r today = true) := by
  refine ⟨?_, ?_, ?_⟩
  · intro rs re cy r h
    simp only [extract_release_date_from_web_simple] at h
    cases hso : strptimeMDY rs with
    | none => rw [hso] at h; cases h
    | some so =>
      cases heo : strptimeMDY re with
      | none => rw [hso, heo] at h; cases h
      | some eo =>
        rw [hso, heo] at h
        dsimp only at h
        by_cases hy : (decide (cy ≤ so.year) && decide (cy ≤ eo.year)) = true
        · rw [if_pos hy] at h
          simp only [Bool.and_eq_true, decide_eq_true_eq] at hy
          exact ⟨so, eo, rfl, rfl, hy.1, hy.2,
            (Option.some_injective _ h).symm⟩
        · rw [if_neg hy] at h
          cases h
  · intro rs re cy r h
    simp only [extract_release_date_from_web_simple] at h
    cases heo : strptimeMDY re with
    | none => rw [heo] at h; cases h
    | some eo =>
      rw [heo] at h
      dsimp only at h
      by_cases hy : cy ≤ eo.year
      · rw [if_pos hy] at h
        exact ⟨eo, rfl, hy, (Option.some_injective _ h).symm⟩
      · rw [if_neg hy] at h
        cases h
  · intro c today r h
    cases c with
    | none => cases h
    | some x =>
      simp only [acceptCandidate] at h
      split at h
      case isTrue hc =>
        rcases Option.some_injective _ h with rfl
        exact ⟨rfl, hc⟩
      case isFalse => cases h

/-- Witness for the C1 amended theorem on the documented first-cell content
`6/13/2026 - 7/14/2026`. -/
theorem release_date_validation_amended_witness :
    ∃ so eo, strptimeMDY (6, 13, 2026) = some so ∧
      strptimeMDY (7, 14, 2026) = some eo ∧
      2026 ≤ so.year ∧ 2026 ≤ eo.year ∧ 20260714 = yyyymmdd eo :=
  release_date_validation_amended.1 (6, 13, 2026) (7, 14, 2026) 2026 20260714
    (by decide)

/-! ### Resolver current-date fallback (C6) -/

theorem maxOperationDate_none (ops : List TOAOperation) :
    (∀ op ∈ ops, fieldDate op.operationDateField = none ∧
      fieldDate op.settlementDateField = none) →
    maxOperationDate ops = none := by
  unfold maxOperationDate
  induction ops with
  | nil => intro _; rfl
  | cons op t ih =>
    intro h
    have hop := h op (List.mem_cons_self _ _)
    simp only [List.foldl_cons, List.foldl_nil, hop.1, hop.2]
    exact ih (fun o ho => h o (List.mem_cons_of_mem _ ho))

theorem daysInMonth_le_31 (y m : Nat) : daysInMonth y m ≤ 31 := by
  unfold daysInMonth
  split_ifs <;> omega

/-- **C6** — When every markup/browser strategy yields no candidate and the
already-parsed records contain no parseable `M/D/YYYY` date (in particular
when there are no records at all), the resolver returns today's date as an
8-digit `YYYYMMDD` number. -/
theorem resolver_current_date_fallback (obs : ResolverObservation)
    (ops : List TOAOperation) (today : SimpleDate)
    (h1 : extract_release_date_from_web_simple obs.page today.year = none)
    (h2 : extract_release_date_with_beautifulsoup obs.bsoupCell = none)
    (h3 : obs.hasDriver = false)
    (h4 : ∀ op ∈ ops, fieldDate op.operationDateField = none ∧
      fieldDate op.settlementDateField = none)
    (h5 : mkValidDate today.year today.month today.day = some today)
    (h6 : 1000 ≤ today.year) :
    calculate_dataset_release_date obs ops today = yyyymmdd today ∧
      10000000 ≤ yyyymmdd today ∧ yyyymmdd today < 100000000 := by
  have hmax := maxOperationDate_none ops h4
  constructor
  · unfold calculate_dataset_release_date
    rw [h1, h2, h3, hmax]
    rfl
  · simp only [mkValidDate] at h5
    split at h5
    case isFalse => cases h5
    case isTrue hc =>
      simp only [Bool.and_eq_true, decide_eq_true_eq] at hc
      have hd := daysInMonth_le_31 today.year today.month
      unfold yyyymmdd
      omega

/-- Witness for C6: zero observations and zero records on 2026-10-12. -/
theorem resolver_current_date_fallback_witness :
    calculate_dataset_release_date ⟨.tableFound none, none, false, []⟩ []
        ⟨2026, 10, 12⟩ = yyyymmdd ⟨2026, 10, 12⟩ ∧
      10000000 ≤ yyyymmdd (⟨2026, 10, 12⟩ : SimpleDate) ∧
      yyyymmdd (⟨2026, 10, 12⟩ : SimpleDate) < 100000000 :=
  resolver_current_date_fallback ⟨.tableFound none, none, false, []⟩ [] ⟨2026, 10, 12⟩
    rfl rfl rfl (by simp) (by decide) (by decide)

/-! ### Uniform release-date stamping (C7) -/

/-- **C7** — After the release-date stamping step on a non-empty batch every
record carries the same single resolved release date, and no record's
`release_date` is left empty (`some _`, never `none`). -/
theorem release_date_applied_uniformly (obs : ResolverObservation)
    (ops : List TOAOperation) (today : SimpleDate) (h : ops ≠ []) :
    (apply_release_date_to_operations obs ops today).length = ops.length ∧
      ∀ op ∈ apply_release_date_to_operations obs ops today,
        op.release_date = some (calculate_dataset_release_date obs ops today) := by
  unfold apply_release_date_to_operations
  rw [if_neg h]
  refine ⟨by simp, ?_⟩
  intro op hop
  obtain ⟨op0, _, rfl⟩ := List.mem_map.mp hop
  rfl

/-- Witness for C7 on a concrete one-record batch. -/
theorem release_date_applied_uniformly_witness :
    (apply_release_date_to_operations ⟨.tableFound none, none, false, []⟩
        [⟨some (6, 13, 2026), none, none⟩] ⟨2026, 10, 12⟩).length =
      ([⟨some (6, 13, 2026), none, none⟩] : List TOAOperation).length ∧
      ∀ op ∈ apply_release_date_to_operations ⟨.tableFound none, none, false, []⟩
          [⟨some (6, 13, 2026), none, none⟩] ⟨2026, 10, 12⟩,
        op.release_date = some (calculate_dataset_release_date
          ⟨.tableFound none, none, false, []⟩
          [⟨some (6, 13, 2026), none, none⟩] ⟨2026, 10, 12⟩) :=
  release_date_applied_uniformly ⟨.tableFound none, none, false, []⟩
    [⟨some (6, 13, 2026), none, none⟩] ⟨2026, 10, 12⟩ (by decide)

end Fedao
